import Mathlib

/-!
Verification development for the entity-resolution core of the
llm-pareto-frontier repository (src/utils/generate_synthesized_data.py).

Strings are modelled as Lean `String`s (lists of characters); the Python
regular-expression substitutions used by the code are embedded as explicit
left-to-right scanners with the same leftmost-match, ordered-alternation and
greedy-quantifier semantics as Python's `re.sub` / `re.search` on the concrete
patterns appearing in the source.  Python floats are modelled as rationals.
-/

/-- ASCII decimal digit, Python's `\d` on the inputs in scope. -/
def isDigitC (c : Char) : Bool := '0' ≤ c && c ≤ '9'

/-- Python regex `\w`: `[a-zA-Z0-9_]`. -/
def isWordC (c : Char) : Bool := c.isAlpha || isDigitC c || c = '_'

/-- Python whitespace (`\s` and `str.strip`): space, tab, LF, CR, VT, FF. -/
def isSpaceC (c : Char) : Bool :=
  c = ' ' || c = '\t' || c = '\n' || c = '\r' || c = '\x0b' || c = '\x0c'

/-- Characters matched by the separator class `[-_\s]` of the source. -/
def isSepC (c : Char) : Bool := c = '-' || c = '_' || isSpaceC c

/-- Python `str.strip()`: drop leading and trailing whitespace. -/
def pyStripL (l : List Char) : List Char :=
  ((l.dropWhile isSpaceC).reverse.dropWhile isSpaceC).reverse

/-- Python `str.strip()` on strings. -/
def pyStrip (s : String) : String := String.mk (pyStripL s.toList)

/-- Python `str.lower()` (ASCII range, which covers every name in the data). -/
def pyLower (s : String) : String := String.mk (s.toList.map Char.toLower)

/-- Does the pattern occur literally at the head of the list? -/
def litAt : List Char → List Char → Bool
  | [], _ => true
  | _ :: _, [] => false
  | a :: as, b :: bs => a = b && litAt as bs

/-- Python `pat in s`: literal substring containment. -/
def containsSubL (pat : List Char) : List Char → Bool
  | [] => pat.isEmpty
  | c :: rest => litAt pat (c :: rest) || containsSubL pat rest

/-- Python `pat in s` on strings. -/
def containsS (pat s : String) : Bool := containsSubL pat.toList s.toList

/-- `re.sub` driver: scan left to right; at each position ask the matcher for
a (replacement, remainder-after-match) pair; on failure keep one character and
advance.  Fuel is the list length plus one: every matcher of the source's
patterns consumes at least one character, so the fuel is never exhausted. -/
def substFuel (m : List Char → Option (List Char × List Char)) :
    Nat → List Char → List Char
  | 0, s => s
  | _ + 1, [] => []
  | fuel + 1, c :: rest =>
    match m (c :: rest) with
    | some (rep, rest') => rep ++ substFuel m fuel rest'
    | none => c :: substFuel m fuel rest

/-- `re.sub(pattern, replacement, s)` for a head-anchored matcher `m`. -/
def subst (m : List Char → Option (List Char × List Char)) (s : List Char) :
    List Char :=
  substFuel m (s.length + 1) s

/-- `re.search` driver: first position (leftmost) where the matcher succeeds,
returning the matched group. -/
def searchFirst (m : List Char → Option (List Char)) : List Char → Option (List Char)
  | [] => m []
  | c :: rest =>
    match m (c :: rest) with
    | some g => some g
    | none => searchFirst m rest

/-- Matcher for `-\d{4}-\d{2}-\d{2}|-\d{4,}` (ordered alternation, greedy). -/
def dateM1 : List Char → Option (List Char × List Char)
  | '-' :: t =>
    match t with
    | a :: b :: c :: d :: '-' :: e :: f :: '-' :: g :: h :: rest =>
      if isDigitC a && isDigitC b && isDigitC c && isDigitC d &&
         isDigitC e && isDigitC f && isDigitC g && isDigitC h then
        some ([], rest)
      else
        let p := t.span isDigitC
        if 4 ≤ p.1.length then some ([], p.2) else none
    | _ =>
      let p := t.span isDigitC
      if 4 ≤ p.1.length then some ([], p.2) else none
  | _ => none

/-- Matcher for `-\d{2}-\d{2}`. -/
def dateM2 : List Char → Option (List Char × List Char)
  | '-' :: a :: b :: '-' :: c :: d :: rest =>
    if isDigitC a && isDigitC b && isDigitC c && isDigitC d then
      some ([], rest)
    else none
  | _ => none

/-- `.*` without `re.DOTALL`: consume to the end of the current line. -/
def restOfLine (l : List Char) : List Char := l.dropWhile (fun c => c ≠ '\n')

/-- If `pat` is a literal head of `s`, return what follows it. -/
def dropLit : List Char → List Char → Option (List Char)
  | [], s => some s
  | _ :: _, [] => none
  | a :: as, b :: bs => if a = b then dropLit as bs else none

/-- Matcher for `preview.*|exp.*|latest.*|beta.*|v\d.*` (ordered alternation;
each alternative greedily consumes the rest of the line). -/
def qualM (s : List Char) : Option (List Char × List Char) :=
  match dropLit "preview".toList s with
  | some t => some ([], restOfLine t)
  | none =>
  match dropLit "exp".toList s with
  | some t => some ([], restOfLine t)
  | none =>
  match dropLit "latest".toList s with
  | some t => some ([], restOfLine t)
  | none =>
  match dropLit "beta".toList s with
  | some t => some ([], restOfLine t)
  | none =>
  match s with
  | 'v' :: d :: t => if isDigitC d then some ([], restOfLine t) else none
  | _ => none

/-- Matcher for `-bf16|-fp\d+|-instruct|-chat` (ordered alternation). -/
def quantM (s : List Char) : Option (List Char × List Char) :=
  match dropLit "-bf16".toList s with
  | some t => some ([], t)
  | none =>
  match dropLit "-fp".toList s with
  | some t =>
    let p := t.span isDigitC
    if p.1.length ≥ 1 then some ([], p.2)
    else
      match dropLit "-instruct".toList s with
      | some t' => some ([], t')
      | none =>
      match dropLit "-chat".toList s with
      | some t' => some ([], t')
      | none => none
  | none =>
  match dropLit "-instruct".toList s with
  | some t => some ([], t)
  | none =>
  match dropLit "-chat".toList s with
  | some t => some ([], t)
  | none => none

/-- Matcher for `(\d+)b-` with replacement `\1b ` (group kept, hyphen to
space). -/
def sizeM (s : List Char) : Option (List Char × List Char) :=
  let p := s.span isDigitC
  if p.1.length ≥ 1 then
    match p.2 with
    | 'b' :: '-' :: rest => some (p.1 ++ ['b', ' '], rest)
    | _ => none
  else none

/-- Matcher for `[-_\s]+` with replacement a single space. -/
def sepM (s : List Char) : Option (List Char × List Char) :=
  let p := s.span isSepC
  if p.1.length ≥ 1 then some ([' '], p.2) else none

/-- `ModelNameNormalizer.normalize`: lowercase, strip date suffixes, strip
qualifier tails, strip quantization tags, split size indicators, collapse
separators, strip. -/
def ModelNameNormalizer.normalize (name : String) : String :=
  let l := name.toList.map Char.toLower
  let l := subst dateM1 l
  let l := subst dateM2 l
  let l := subst qualM l
  let l := subst quantM l
  let l := subst sizeM l
  let l := subst sepM l
  String.mk (pyStripL l)

/-- `PriceInfo` dataclass: price, provider, original (unlowered) name. -/
structure PriceInfo where
  price : ℚ
  provider : String
  original_name : String
deriving DecidableEq, Repr

/-- `ModelData` dataclass: the resolved output record. -/
structure ModelData where
  model : String
  elo : Int
  price : ℚ
  cheapest_provider : String
  votes : Int
  matched_price_model : String
deriving DecidableEq, Repr

/-- `MatchingDebugInfo` dataclass: the debug record. -/
structure MatchingDebugInfo where
  rank_model : String
  matched_price_model : String
  price : ℚ
  provider : String
deriving DecidableEq, Repr

/-- One entry of the rank-side catalog as consumed by `_process_model`:
`model.get("Model", "")`, `model.get("Score")`, `model.get("Votes")`,
`model.get("Organization", "")` — absent keys are `none`. -/
structure RankModel where
  Model : Option String
  Score : Option ℚ
  Votes : Option Int
  Organization : Option String
deriving DecidableEq, Repr

/-- Python-dict lookup on an insertion-ordered association list. -/
def dictFind {α : Type} : List (String × α) → String → Option α
  | [], _ => none
  | (k, v) :: rest, key => if k = key then some v else dictFind rest key

/-- Python `d[key] = v`: update in place (keeping insertion position) if the
key exists, else append. -/
def dictSet {α : Type} : List (String × α) → String → α → List (String × α)
  | [], key, v => [(key, v)]
  | (k, w) :: rest, key, v =>
    if k = key then (k, v) :: rest else (k, w) :: dictSet rest key v

/-- The body of the dedup loop of `DataSynthesizer._load_price_data`: insert
under the lowercased name unless an entry with a lower-or-equal price is
already present. -/
def insertPrice (lookup : List (String × PriceInfo)) (provider_name : String)
    (name : String) (inputPrice : ℚ) : List (String × PriceInfo) :=
  let model_name := pyLower name
  match dictFind lookup model_name with
  | none => dictSet lookup model_name ⟨inputPrice, provider_name, name⟩
  | some existing =>
    if inputPrice < existing.price then
      dictSet lookup model_name ⟨inputPrice, provider_name, name⟩
    else lookup

/-- `DataSynthesizer._load_price_data` on an already-parsed price catalog:
a list of (provider, list of (model name, inputPrice)) groups. -/
def load_price_data (price_data : List (String × List (String × ℚ))) :
    List (String × PriceInfo) :=
  price_data.foldl
    (fun lookup prov =>
      prov.2.foldl (fun lk m => insertPrice lk prov.1 m.1 m.2) lookup)
    []

/-- `PriceMatcher.MODEL_FAMILIES`. -/
def MODEL_FAMILIES : List String :=
  ["gemini", "gpt", "claude", "deepseek", "qwen", "grok"]

/-- `re.search(r"(\d+\.?\d*)", s)`: first digit run, optionally followed by a
dot and a further (possibly empty) digit run. -/
def numTokenM (s : List Char) : Option (List Char) :=
  let p := s.span isDigitC
  if p.1.length ≥ 1 then
    match p.2 with
    | '.' :: rest => some (p.1 ++ ['.'] ++ (rest.span isDigitC).1)
    | _ => some p.1
  else none

/-- The first numeric version token of a string, as used by the family-bonus
version check. -/
def firstNumToken (s : String) : Option (List Char) := searchFirst numTokenM s.toList

/-- The extra 0.2 version bonus: both names hold a numeric token and the
tokens coincide textually. -/
def version_bonus (model_lower price_model_lower : String) : ℚ :=
  match firstNumToken model_lower, firstNumToken price_model_lower with
  | some a, some b => if a = b then 2 / 10 else 0
  | _, _ => 0

/-- `PriceMatcher._calculate_family_bonus`: walk the family list; on the first
family contained in both lowercased names add 0.3, plus 0.2 when the first
numeric tokens of both names exist and coincide, then stop. -/
def PriceMatcher.family_bonus_loop (model_lower price_model_lower : String) :
    List String → ℚ
  | [] => 0
  | family :: rest =>
    if containsS family model_lower && containsS family price_model_lower then
      3 / 10 + version_bonus model_lower price_model_lower
    else PriceMatcher.family_bonus_loop model_lower price_model_lower rest

/-- `PriceMatcher._calculate_family_bonus`. -/
def PriceMatcher.calculate_family_bonus (model_lower price_model_lower : String) : ℚ :=
  PriceMatcher.family_bonus_loop model_lower price_model_lower MODEL_FAMILIES

/-- Maximal runs of `\w` characters: `re.findall(r"\w+", s)`. -/
def wordRunsGo : List Char → List Char → List String
  | [], cur => if cur.isEmpty then [] else [String.mk cur.reverse]
  | c :: rest, cur =>
    if isWordC c then wordRunsGo rest (c :: cur)
    else if cur.isEmpty then wordRunsGo rest []
    else String.mk cur.reverse :: wordRunsGo rest []

/-- `re.findall(r"\w+", s)`. -/
def wordRuns (s : String) : List String := wordRunsGo s.toList []

/-- Deduplicate keeping first occurrences (the carrier of a Python `set`). -/
def uniqGo : List String → List String → List String
  | _, [] => []
  | seen, a :: as =>
    if seen.contains a then uniqGo seen as else a :: uniqGo (a :: seen) as

/-- Deduplicate keeping first occurrences. -/
def uniq (l : List String) : List String := uniqGo [] l

/-- `PriceMatcher._calculate_similarity_score`: Jaccard index over the word
tokens of the two normalized names (zero below two shared tokens), plus the
family bonus on the lowercased raw names. -/
def PriceMatcher.similarity_score
    (model_lower model_normalized price_model : String) : ℚ :=
  let model_parts := uniq (wordRuns model_normalized)
  let price_parts := uniq (wordRuns (ModelNameNormalizer.normalize price_model))
  let overlap := (model_parts.filter (fun t => price_parts.contains t)).length
  let total_parts :=
    model_parts.length + (price_parts.filter (fun t => !model_parts.contains t)).length
  if overlap < 2 ∨ total_parts = 0 then 0
  else (overlap : ℚ) / (total_parts : ℚ) +
    PriceMatcher.calculate_family_bonus model_lower (pyLower price_model)

/-- One step of the best-score loop of `PriceMatcher._fuzzy_match`: replace
the running best on a strict improvement. -/
def PriceMatcher.fuzzy_step (model_lower model_normalized : String)
    (best : ℚ × Option PriceInfo) (p : String × PriceInfo) : ℚ × Option PriceInfo :=
  let score := PriceMatcher.similarity_score model_lower model_normalized p.1
  if best.1 < score then (score, some p.2) else best

/-- The best-score fold of `PriceMatcher._fuzzy_match`: start from score 0 and
no match, replace on strict improvement. -/
def PriceMatcher.fuzzy_fold (model_lower model_normalized : String)
    (lookup : List (String × PriceInfo)) : ℚ × Option PriceInfo :=
  lookup.foldl (PriceMatcher.fuzzy_step model_lower model_normalized) (0, none)

/-- `PriceMatcher._fuzzy_match`: the best match when its score exceeds the
0.5 threshold, else nothing. -/
def PriceMatcher.fuzzy_match (lookup : List (String × PriceInfo))
    (model_lower model_normalized : String) : Option PriceInfo :=
  let best := PriceMatcher.fuzzy_fold model_lower model_normalized lookup
  if 1 / 2 < best.1 then best.2 else none

/-- The maximum similarity score over the catalog (0 on an empty catalog). -/
def PriceMatcher.max_fuzzy_score (lookup : List (String × PriceInfo))
    (model_lower model_normalized : String) : ℚ :=
  lookup.foldl
    (fun b p => max b (PriceMatcher.similarity_score model_lower model_normalized p.1))
    0

/-- `PriceMatcher.find_match`: exact (lowercased-key) lookup, then the first
entry with an equal normalized name, then fuzzy matching. -/
def PriceMatcher.find_match (lookup : List (String × PriceInfo))
    (model_name : String) : Option PriceInfo :=
  let model_lower := pyLower model_name
  let model_normalized := ModelNameNormalizer.normalize model_name
  match dictFind lookup model_lower with
  | some info => some info
  | none =>
    match lookup.find? (fun p => ModelNameNormalizer.normalize p.1 == model_normalized) with
    | some p => some p.2
    | none => PriceMatcher.fuzzy_match lookup model_lower model_normalized

/-- Scanner for `searchSeq`: at each position, try literal `a`, then `b`
within the rest of the line. -/
def searchSeqGo (a b : List Char) : List Char → Bool
  | [] => false
  | c :: rest =>
    (match dropLit a (c :: rest) with
     | some t => containsSubL b (t.takeWhile (fun ch => ch ≠ '\n'))
     | none => false) || searchSeqGo a b rest

/-- `re.search` of `a` followed by `.*` followed by `b` (no DOTALL): some
occurrence of `a` with `b` later on the same line. -/
def searchSeq (a b s : String) : Bool := searchSeqGo a.toList b.toList s.toList

/-- One provider family of `DefaultPricingEstimator.PRICING_RULES`: ordered
pattern rules, flat default price, canonical provider label. -/
structure PricingRule where
  patterns : List ((String → Bool) × ℚ)
  default_price : ℚ
  provider : String

/-- `DefaultPricingEstimator.PRICING_RULES`: each regex is embedded as the
Boolean `re.search` test it performs on the lowercased model name. -/
def PRICING_RULES : List (String × PricingRule) :=
  [("openai",
    ⟨[(fun s => containsS "4.5" s || containsS "o3" s, 15),
      (fun s => containsS "4o" s || containsS "4.1" s, 5 / 2),
      (fun s => containsS "mini" s || containsS "nano" s, 1 / 2)], 5, "OpenAI"⟩),
   ("anthropic",
    ⟨[(fun s => containsS "3.7" s || containsS "opus" s, 15),
      (fun s => containsS "sonnet" s, 3),
      (fun s => containsS "haiku" s, 4 / 5)], 3, "Anthropic"⟩),
   ("google",
    ⟨[(fun s => searchSeq "2.5" "pro" s, 5 / 4),
      (fun s => containsS "pro" s, 5 / 4),
      (fun s => containsS "flash" s, 3 / 20)], 1, "Google"⟩),
   ("deepseek",
    ⟨[(fun s => containsS "v3" s, 27 / 100),
      (fun s => containsS "r1" s, 11 / 20)], 1 / 2, "DeepSeek"⟩),
   ("alibaba", ⟨[], 9 / 10, "Alibaba"⟩),
   ("xai", ⟨[], 2, "xAI"⟩)]

/-- `DefaultPricingEstimator._determine_provider_family`: first family one of
whose keywords occurs in the lowercased name or organization. -/
def DefaultPricingEstimator.determine_provider_family
    (model_lower org_lower : String) : Option String :=
  let family_checks : List (String × List String) :=
    [("openai", ["gpt", "openai"]),
     ("anthropic", ["claude", "anthropic"]),
     ("google", ["gemini", "google"]),
     ("deepseek", ["deepseek"]),
     ("alibaba", ["qwen", "alibaba"]),
     ("xai", ["grok", "xai"])]
  (family_checks.find?
      (fun fc => fc.2.any (fun k => containsS k model_lower || containsS k org_lower))).map
    Prod.fst

/-- `DefaultPricingEstimator.estimate_pricing`: family-rule price and label,
falling back to `(1.0, organization or "Unknown")`. -/
def DefaultPricingEstimator.estimate_pricing (model_name organization : String) :
    ℚ × String :=
  let model_lower := pyLower model_name
  let org_lower := pyLower organization
  match DefaultPricingEstimator.determine_provider_family model_lower org_lower with
  | some provider_family =>
    (match dictFind PRICING_RULES provider_family with
     | some rules =>
       (match rules.patterns.find? (fun p => p.1 model_lower) with
        | some p => (p.2, rules.provider)
        | none => (rules.default_price, rules.provider))
     | none => (1, if organization = "" then "Unknown" else organization))
  | none => (1, if organization = "" then "Unknown" else organization)

/-- Python `int(round(x))` on a rational: round half to even. -/
def pyRound (q : ℚ) : Int :=
  let f := ⌊q⌋
  let frac := q - (f : ℚ)
  if frac < 1 / 2 then f
  else if 1 / 2 < frac then f + 1
  else if f % 2 = 0 then f else f + 1

/-- `DataSynthesizer._process_model`: field extraction, the truthiness guard
`not all([model_name, elo_score, votes])`, match-or-estimate, the free-price
exclusion, and the final DEFAULT_ESTIMATE / Unknown filter. -/
def DataSynthesizer.process_model (lookup : List (String × PriceInfo))
    (exclude_free : Bool) (model : RankModel) :
    Option (ModelData × MatchingDebugInfo) :=
  let model_name := pyStrip (model.Model.getD "")
  let organization := model.Organization.getD ""
  match model.Score, model.Votes with
  | some elo_score, some votes =>
    if model_name = "" ∨ elo_score = 0 ∨ votes = 0 then none
    else
      let result : Option (ModelData × MatchingDebugInfo) :=
        match PriceMatcher.find_match lookup model_name with
        | some price_info =>
          some (⟨model_name, pyRound elo_score, price_info.price,
                 price_info.provider, votes, price_info.original_name⟩,
                ⟨model_name, price_info.original_name, price_info.price,
                 price_info.provider⟩)
        | none =>
          let est := DefaultPricingEstimator.estimate_pricing model_name organization
          if exclude_free ∧ est.1 ≤ 0 then none
          else
            some (⟨model_name, pyRound elo_score, est.1, est.2, votes, model_name⟩,
                  ⟨model_name, "DEFAULT_ESTIMATE", est.1, est.2⟩)
      match result with
      | none => none
      | some (model_data, debug_info) =>
        if debug_info.matched_price_model = "DEFAULT_ESTIMATE" ∨
           debug_info.provider = "Unknown" then none
        else some (model_data, debug_info)
  | _, _ => none

/-- The per-entry loop of `DataSynthesizer.generate`: skip entries below the
minimum score (`model["Score"]` raising on a missing key is modelled as the
whole run returning `none`), append the processed pair in lockstep. -/
def DataSynthesizer.generateAux (lookup : List (String × PriceInfo))
    (min_elo : ℚ) (exclude_free : Bool) :
    List RankModel → List ModelData → List MatchingDebugInfo →
    Option (List ModelData × List MatchingDebugInfo)
  | [], synthesized_data, matching_debug => some (synthesized_data, matching_debug)
  | model :: rest, synthesized_data, matching_debug =>
    match model.Score with
    | none => none
    | some score =>
      if score < min_elo then
        DataSynthesizer.generateAux lookup min_elo exclude_free rest
          synthesized_data matching_debug
      else
        match DataSynthesizer.process_model lookup exclude_free model with
        | some (model_data, debug_info) =>
          DataSynthesizer.generateAux lookup min_elo exclude_free rest
            (synthesized_data ++ [model_data]) (matching_debug ++ [debug_info])
        | none =>
          DataSynthesizer.generateAux lookup min_elo exclude_free rest
            synthesized_data matching_debug

/-- `DataSynthesizer.generate` restricted to its pure core: the two output
lists produced from an already-loaded rank list and price lookup. -/
def DataSynthesizer.generate (lookup : List (String × PriceInfo)) (min_elo : ℚ)
    (exclude_free : Bool) (rank_data : List RankModel) :
    Option (List ModelData × List MatchingDebugInfo) :=
  DataSynthesizer.generateAux lookup min_elo exclude_free rank_data [] []

/-- The entries of the rank list that reach `_process_model`'s matching step:
score present and not below the minimum, and the truthiness guard passed. -/
def entered_matching (min_elo : ℚ) (model : RankModel) : Bool :=
  match model.Score, model.Votes with
  | some score, some votes =>
    !(score < min_elo) && pyStrip (model.Model.getD "") ≠ "" &&
      score ≠ 0 && votes ≠ 0
  | _, _ => false

/-- The processed (resolved, debug) pairs of a rank list, in rank order. -/
def processedPairs (lookup : List (String × PriceInfo)) (min_elo : ℚ)
    (exclude_free : Bool) (rank_data : List RankModel) :
    List (ModelData × MatchingDebugInfo) :=
  rank_data.filterMap
    (fun model =>
      match model.Score with
      | none => none
      | some score =>
        if score < min_elo then none
        else DataSynthesizer.process_model lookup exclude_free model)

/-- Exactly `n` leading digits: `\d{n}` at the head. -/
def takeDigitsN : Nat → List Char → Option (List Char × List Char)
  | 0, s => some ([], s)
  | _ + 1, [] => none
  | n + 1, c :: rest =>
    if isDigitC c then
      (takeDigitsN n rest).map (fun p => (c :: p.1, p.2))
    else none

/-- The date alternative `\d{2}-\d{2}` at the head, returning the group. -/
def dateShortM (s : List Char) : Option (List Char) :=
  match takeDigitsN 2 s with
  | some p =>
    (match p.2 with
     | '-' :: t =>
       (match takeDigitsN 2 t with
        | some q => some (p.1 ++ ['-'] ++ q.1)
        | none => none)
     | _ => none)
  | none => none

/-- Head matcher for the date alternation
`\d{8}|\d{6}|\d{4}-\d{2}-\d{2}|\d{2}-\d{2}` (ordered), returning the group. -/
def dateGroupM (s : List Char) : Option (List Char) :=
  match takeDigitsN 8 s with
  | some p => some p.1
  | none =>
  match takeDigitsN 6 s with
  | some p => some p.1
  | none =>
  match takeDigitsN 4 s with
  | some p =>
    (match p.2 with
     | '-' :: t =>
       (match takeDigitsN 2 t with
        | some q =>
          (match q.2 with
           | '-' :: u =>
             (match takeDigitsN 2 u with
              | some r => some (p.1 ++ ['-'] ++ q.1 ++ ['-'] ++ r.1)
              | none => dateShortM s)
           | _ => dateShortM s)
        | none => dateShortM s)
     | _ => dateShortM s)
  | none => dateShortM s

/-- Greedy `(\.\d+)*`: repeated dot-plus-digit-run groups. -/
def dotRunsGo : Nat → List Char → List Char × List Char
  | 0, s => ([], s)
  | fuel + 1, s =>
    match s with
    | '.' :: t =>
      let p := t.span isDigitC
      if p.1.length ≥ 1 then
        let q := dotRunsGo fuel p.2
        ('.' :: (p.1 ++ q.1), q.2)
      else ([], s)
    | _ => ([], s)

/-- Head matcher for `[vV]\d+(\.\d+)*`, returning the group. -/
def versionGroupM (s : List Char) : Option (List Char) :=
  match s with
  | c :: t =>
    if c = 'v' ∨ c = 'V' then
      let p := t.span isDigitC
      if p.1.length ≥ 1 then
        let q := dotRunsGo p.2.length p.2
        some (c :: (p.1 ++ q.1))
      else none
    else none
  | [] => none

/-- Head matcher for the base-name removal pattern
`\d{8}|\d{6}|\d{4}-\d{2}-\d{2}|\d{2}-\d{2}|[vV]\d+(\.\d+)*` as a substitution
(empty replacement). -/
def baseSubM (s : List Char) : Option (List Char × List Char) :=
  match dateGroupM s with
  | some g => some ([], s.drop g.length)
  | none =>
    match versionGroupM s with
    | some g => some ([], s.drop g.length)
    | none => none

/-- Matcher for `\s\s+` with replacement a single space. -/
def wsM (s : List Char) : Option (List Char × List Char) :=
  match s with
  | a :: b :: _ =>
    if isSpaceC a && isSpaceC b then
      some ([' '], (s.drop 2).dropWhile isSpaceC)
    else none
  | _ => none

/-- Python `display_name.split("/")[-1]`: the segment after the last slash. -/
def afterLastSlash (s : String) : String :=
  String.mk ((s.toList.reverse.takeWhile (fun c => c ≠ '/')).reverse)

/-- `"<matched name with date/version tokens removed, stripped> (<suffix>)"`:
the disambiguated display name built by `_generate_js_content`. -/
def mkDisambiguated (matched : String) (suffix : List Char) : String :=
  let base_name := pyStripL (subst baseSubM matched.toList)
  let base_name := subst wsM base_name
  String.mk (base_name ++ (" (".toList ++ suffix ++ ")".toList))

/-- The display name computed for one record by
`DataSynthesizer._generate_js_content`: when the matched catalog name is shared
by more than one record, disambiguate with the first date-like or version-like
token of the record's own rank name. -/
def DataSynthesizer.display_name_for (synthesized_data : List ModelData)
    (item : ModelData) : String :=
  let count :=
    (synthesized_data.filter
      (fun x => x.matched_price_model = item.matched_price_model)).length
  let display_name := item.matched_price_model
  let display_name :=
    if 1 < count then
      match searchFirst dateGroupM item.model.toList,
            searchFirst versionGroupM item.model.toList with
      | some suffix, _ => mkDisambiguated item.matched_price_model suffix
      | none, some suffix => mkDisambiguated item.matched_price_model suffix
      | none, none => item.model
    else display_name
  if containsS "/" display_name then afterLastSlash display_name else display_name

/-- The display names emitted by `_generate_js_content`, in record order. -/
def DataSynthesizer.js_display_names (synthesized_data : List ModelData) :
    List String :=
  synthesized_data.map (DataSynthesizer.display_name_for synthesized_data)

/-- The price catalog flattened to (provider, model name, inputPrice) triples
in iteration order. -/
def flatEntries (price_data : List (String × List (String × ℚ))) :
    List (String × String × ℚ) :=
  price_data.flatMap (fun prov => prov.2.map (fun m => (prov.1, m)))

/-- The dedup-loop body of `_load_price_data` on one flattened triple. -/
def insertStep (lookup : List (String × PriceInfo)) (it : String × String × ℚ) :
    List (String × PriceInfo) :=
  insertPrice lookup it.1 it.2.1 it.2.2

/-- The `PriceInfo` values of all catalog entries whose lowercased raw name is
`key`, in iteration order. -/
def entriesFor (price_data : List (String × List (String × ℚ))) (key : String) :
    List PriceInfo :=
  (flatEntries price_data).filterMap
    (fun it => if pyLower it.2.1 = key then some ⟨it.2.2, it.1, it.2.1⟩ else none)

/-- Keep the cheaper entry; on a price tie keep the earlier one. -/
def minFoldStep (a : Option PriceInfo) (i : PriceInfo) : Option PriceInfo :=
  match a with
  | none => some i
  | some x => if i.price < x.price then some i else some x

/-- Fold `minFoldStep` over a list of candidate entries. -/
def minFold (a : Option PriceInfo) (l : List PriceInfo) : Option PriceInfo :=
  l.foldl minFoldStep a

/-- A one-entry OpenAI price catalog, as loaded by `_load_price_data`. -/
def demoLookup : List (String × PriceInfo) :=
  load_price_data [("OpenAI", [("gpt-4o", 5 / 2)])]

/-- The rank entry of the end-to-end normalized-match scenario. -/
def gpt4oEntry : RankModel :=
  ⟨some "gpt-4o-2024-08-06", some 1300, some 500, some "OpenAI"⟩

/-- The rank entry of the fallback scenario. -/
def unknownEntry : RankModel :=
  ⟨some "totally-unknown-model-v9", some 1260, some 500, some "OpenAI"⟩

/-- Two resolved records matched to the same catalog name "Family-X". -/
def familyXa : ModelData := ⟨"Family-X-20240601", 1300, 1, "ProvP", 10, "Family-X"⟩

/-- The second record matched to "Family-X". -/
def familyXb : ModelData := ⟨"Family-X-20240915", 1290, 1, "ProvP", 10, "Family-X"⟩

/-- A catalog whose two entries collapse to the key "x" with prices 2 then 1. -/
def collidingCatalog : List (String × List (String × ℚ)) :=
  [("ProvA", [("X", 2)]), ("ProvB", [("x", 1)])]

/-- A catalog whose two entries collapse to the key "x" with equal prices. -/
def tiedCatalog : List (String × List (String × ℚ)) :=
  [("ProvA", [("X", 1)]), ("ProvB", [("x", 1)])]

/-- A catalog entry whose similarity score against the query "w x" is exactly
one half (two of four tokens shared, no family bonus). -/
def halfLookup : List (String × PriceInfo) := [("w x y z", ⟨1, "ProvP", "w x y z"⟩)]

/-- A catalog entry whose similarity score against the query "w x" is
two thirds (two of three tokens shared, no family bonus). -/
def overLookup : List (String × PriceInfo) := [("w x y", ⟨1, "ProvP", "w x y"⟩)]
set_option maxRecDepth 16000

/-- C2 counterexample: `normalize` is not idempotent — on "ex-instructp" the
quantization pass manufactures the string "exp", which a second run's
qualifier pass erases entirely. -/
theorem normalize_not_idempotent_cex :
    ModelNameNormalizer.normalize (ModelNameNormalizer.normalize "ex-instructp") ≠
      ModelNameNormalizer.normalize "ex-instructp" := by with_unfolding_all decide

/-- C2 (amended): `normalize` is total with `normalize "" = ""`, but it is not
idempotent: `normalize "ex-instructp" = "exp"` while `normalize "exp" = ""`. -/
theorem normalize_total_not_idempotent :
    ModelNameNormalizer.normalize "" = "" ∧
    ModelNameNormalizer.normalize "ex-instructp" = "exp" ∧
    ModelNameNormalizer.normalize "exp" = "" ∧
    ModelNameNormalizer.normalize (ModelNameNormalizer.normalize "ex-instructp") ≠
      ModelNameNormalizer.normalize "ex-instructp" := by with_unfolding_all decide

/-- C1 counterexample: the fallback entry is dropped, not emitted —
`_process_model` returns `None` for the unmatched OpenAI entry under either
`exclude_free` setting, so no `DebugRecord` is produced. -/
theorem fallback_entry_dropped_cex :
    DataSynthesizer.process_model [] true unknownEntry = none ∧
    DataSynthesizer.process_model [] false unknownEntry = none := by with_unfolding_all decide

/-- C1 (amended): for the unmatched OpenAI entry, `find_match` misses,
`estimate_pricing` yields the OpenAI family default (5.0, "OpenAI") — the price
the internal DEFAULT_ESTIMATE debug record would carry — but the final filter
of `_process_model` rejects DEFAULT_ESTIMATE records, so the entry is dropped
(`None`) instead of producing a debug record. -/
theorem fallback_entry_estimate_then_dropped :
    PriceMatcher.find_match [] "totally-unknown-model-v9" = none ∧
    DefaultPricingEstimator.estimate_pricing "totally-unknown-model-v9" "OpenAI" =
      (5, "OpenAI") ∧
    DataSynthesizer.process_model [] true unknownEntry = none ∧
    DataSynthesizer.process_model [] false unknownEntry = none := by with_unfolding_all decide

/-- C7 counterexample: the repaired display names keep the hyphen of the
matched catalog name — they are not the claimed "Family X (...)" labels. -/
theorem collision_repair_cex :
    DataSynthesizer.js_display_names [familyXa, familyXb] ≠
      ["Family X (20240601)", "Family X (20240915)"] := by with_unfolding_all decide

/-- C7 (amended): the collision repair yields "Family-X (20240601)" and
"Family-X (20240915)" (hyphen preserved): two distinct labels, each record
receiving the same label under either list order. -/
theorem collision_repair_names :
    DataSynthesizer.js_display_names [familyXa, familyXb] =
      ["Family-X (20240601)", "Family-X (20240915)"] ∧
    DataSynthesizer.js_display_names [familyXb, familyXa] =
      ["Family-X (20240915)", "Family-X (20240601)"] ∧
    ("Family-X (20240601)" : String) ≠ "Family-X (20240915)" := by with_unfolding_all decide

/-- C8: "gpt-4o-2024-08-06" misses the exact key, equals "gpt-4o" after
normalization (date suffix stripped), and resolves to provider "OpenAI" at
price 2.5; the matched name in both output records is the catalog's "gpt-4o",
so the default estimator is never consulted. -/
theorem end_to_end_normalized_match :
    dictFind demoLookup (pyLower "gpt-4o-2024-08-06") = none ∧
    ModelNameNormalizer.normalize "gpt-4o-2024-08-06" =
      ModelNameNormalizer.normalize "gpt-4o" ∧
    PriceMatcher.find_match demoLookup "gpt-4o-2024-08-06" =
      some ⟨5 / 2, "OpenAI", "gpt-4o"⟩ ∧
    DataSynthesizer.process_model demoLookup true gpt4oEntry =
      some (⟨"gpt-4o-2024-08-06", 1300, 5 / 2, "OpenAI", 500, "gpt-4o"⟩,
            ⟨"gpt-4o-2024-08-06", "gpt-4o", 5 / 2, "OpenAI"⟩) := by with_unfolding_all decide

/-- C3: whenever the lowercased rank name is a key of the price lookup,
`find_match` returns exactly that key's `PriceInfo` via the exact strategy,
regardless of what any other entry would score. -/
theorem exact_match_priority (lookup : List (String × PriceInfo))
    (model_name : String) (info : PriceInfo)
    (h : dictFind lookup (pyLower model_name) = some info) :
    PriceMatcher.find_match lookup model_name = some info := by
  simp only [PriceMatcher.find_match]
  rw [h]

/-- C3 witness: "GPT-4o" lowers to the key "gpt-4o" of the demo catalog, and
the exact strategy returns its entry. -/
theorem exact_match_priority_witness :
    PriceMatcher.find_match demoLookup "GPT-4o" = some ⟨5 / 2, "OpenAI", "gpt-4o"⟩ :=
  exact_match_priority demoLookup "GPT-4o" ⟨5 / 2, "OpenAI", "gpt-4o"⟩
    (by with_unfolding_all decide)

/-- C10: `_process_model` returns `None` for every entry whose `Votes` is 0,
whose `Score` is 0, or whose stripped name is empty: the truthiness guard
`not all([model_name, elo_score, votes])` treats these like missing fields. -/
theorem zero_fields_skipped (lookup : List (String × PriceInfo))
    (exclude_free : Bool) (model : RankModel)
    (h : model.Votes = some 0 ∨ model.Score = some 0 ∨
         pyStrip (model.Model.getD "") = "") :
    DataSynthesizer.process_model lookup exclude_free model = none := by
  rcases hS : model.Score with _ | score <;> rcases hV : model.Votes with _ | votes <;>
    simp only [DataSynthesizer.process_model, hS, hV]
  rw [if_pos]
  rcases h with h | h | h
  · rw [hV] at h
    exact Or.inr (Or.inr (by injection h))
  · rw [hS] at h
    exact Or.inr (Or.inl (by injection h))
  · exact Or.inl h

/-- C10 witness: a concrete entry with 0 votes is skipped. -/
theorem zero_fields_skipped_witness :
    DataSynthesizer.process_model [] true ⟨some "model-a", some 1300, some 0, some "X"⟩ = none :=
  zero_fields_skipped [] true ⟨some "model-a", some 1300, some 0, some "X"⟩
    (Or.inl rfl)
/-- The version bonus is 0 or exactly 0.2. -/
lemma version_bonus_cases (ml pml : String) :
    version_bonus ml pml = 0 ∨ version_bonus ml pml = 2 / 10 := by
  unfold version_bonus
  rcases firstNumToken ml with _ | a <;> rcases firstNumToken pml with _ | b
  · exact Or.inl rfl
  · exact Or.inl rfl
  · exact Or.inl rfl
  · dsimp only
    split_ifs
    · exact Or.inr rfl
    · exact Or.inl rfl

/-- The family loop yields `0.3 + version bonus` as soon as any family of the
list is contained in both names (the loop breaks on the first such family, and
every family contributes the same amount), else 0. -/
lemma family_bonus_loop_spec (ml pml : String) (fams : List String) :
    PriceMatcher.family_bonus_loop ml pml fams =
      (if fams.any (fun f => containsS f ml && containsS f pml) then
        3 / 10 + version_bonus ml pml
      else 0) := by
  induction fams with
  | nil => rfl
  | cons f rest ih =>
    simp only [PriceMatcher.family_bonus_loop, List.any_cons]
    by_cases h : containsS f ml && containsS f pml
    · simp [h]
    · simp [h, ih]

/-- C6: the family bonus is exactly `0.3 + version bonus` when some family of
the fixed list occurs in both names — a single flat 0.3 (the source loop
breaks after the first family, so bonuses never stack) plus 0.2 exactly when
both names hold equal first numeric tokens — and 0 otherwise; in particular it
never exceeds 0.3 + 0.2. -/
theorem family_bonus_bounded (ml pml : String) :
    PriceMatcher.calculate_family_bonus ml pml =
      (if MODEL_FAMILIES.any (fun f => containsS f ml && containsS f pml) then
        3 / 10 + version_bonus ml pml
      else 0) ∧
    PriceMatcher.calculate_family_bonus ml pml ≤ 3 / 10 + 2 / 10 := by
  refine ⟨family_bonus_loop_spec ml pml MODEL_FAMILIES, ?_⟩
  unfold PriceMatcher.calculate_family_bonus
  rw [family_bonus_loop_spec]
  split_ifs
  · rcases version_bonus_cases ml pml with h | h <;> rw [h] <;> norm_num
  · norm_num

/-- One step of the fuzzy fold tracks the running maximum score. -/
lemma fuzzy_step_fst (ml mn : String) (b : ℚ × Option PriceInfo)
    (p : String × PriceInfo) :
    (PriceMatcher.fuzzy_step ml mn b p).1 =
      max b.1 (PriceMatcher.similarity_score ml mn p.1) := by
  simp only [PriceMatcher.fuzzy_step]
  split_ifs with h
  · exact (max_eq_right h.le).symm
  · exact (max_eq_left (not_lt.mp h)).symm

/-- The first component of the fuzzy fold is the fold of `max` over the
similarity scores. -/
lemma fuzzy_fold_fst (ml mn : String) (lookup : List (String × PriceInfo)) :
    ∀ b : ℚ × Option PriceInfo,
      (lookup.foldl (PriceMatcher.fuzzy_step ml mn) b).1 =
        lookup.foldl
          (fun q p => max q (PriceMatcher.similarity_score ml mn p.1)) b.1 := by
  induction lookup with
  | nil => intro b; rfl
  | cons p rest ih =>
    intro b
    rw [List.foldl_cons, List.foldl_cons, ih, fuzzy_step_fst]

/-- The fuzzy fold either keeps its seed, or its best score is achieved by a
catalog entry whose info it returns. -/
lemma fuzzy_fold_achieved (ml mn : String) (lookup : List (String × PriceInfo)) :
    ∀ b : ℚ × Option PriceInfo,
      lookup.foldl (PriceMatcher.fuzzy_step ml mn) b = b ∨
      ∃ p ∈ lookup,
        PriceMatcher.similarity_score ml mn p.1 =
          (lookup.foldl (PriceMatcher.fuzzy_step ml mn) b).1 ∧
        (lookup.foldl (PriceMatcher.fuzzy_step ml mn) b).2 = some p.2 := by
  induction lookup with
  | nil => intro b; exact Or.inl rfl
  | cons p rest ih =>
    intro b
    rw [List.foldl_cons]
    rcases ih (PriceMatcher.fuzzy_step ml mn b p) with heq | ⟨q, hq, hsim, hsnd⟩
    · rw [heq]
      by_cases h : b.1 < PriceMatcher.similarity_score ml mn p.1
      · refine Or.inr ⟨p, List.mem_cons_self p rest, ?_, ?_⟩ <;>
          simp [PriceMatcher.fuzzy_step, if_pos h]
      · left
        simp [PriceMatcher.fuzzy_step, if_neg h]
    · exact Or.inr ⟨q, List.mem_cons_of_mem p hq, hsim, hsnd⟩

/-- C4: a maximum fuzzy similarity of exactly 0.5 is rejected (`None`), while
a maximum strictly above 0.5 returns the entry achieving it. -/
theorem fuzzy_threshold_boundary (lookup : List (String × PriceInfo))
    (model_lower model_normalized : String) :
    (PriceMatcher.max_fuzzy_score lookup model_lower model_normalized = 1 / 2 →
      PriceMatcher.fuzzy_match lookup model_lower model_normalized = none) ∧
    (1 / 2 < PriceMatcher.max_fuzzy_score lookup model_lower model_normalized →
      ∃ p ∈ lookup,
        PriceMatcher.similarity_score model_lower model_normalized p.1 =
          PriceMatcher.max_fuzzy_score lookup model_lower model_normalized ∧
        PriceMatcher.fuzzy_match lookup model_lower model_normalized = some p.2) := by
  have hfst :
      (PriceMatcher.fuzzy_fold model_lower model_normalized lookup).1 =
        PriceMatcher.max_fuzzy_score lookup model_lower model_normalized :=
    fuzzy_fold_fst model_lower model_normalized lookup (0, none)
  constructor
  · intro h
    simp only [PriceMatcher.fuzzy_match]
    rw [hfst, h]
    norm_num
  · intro h
    rcases fuzzy_fold_achieved model_lower model_normalized lookup (0, none) with
      heq | ⟨p, hp, hsim, hsnd⟩
    · exfalso
      have h0 : PriceMatcher.max_fuzzy_score lookup model_lower model_normalized = 0 := by
        rw [← hfst]
        rw [show PriceMatcher.fuzzy_fold model_lower model_normalized lookup =
              lookup.foldl (PriceMatcher.fuzzy_step model_lower model_normalized)
                (0, none) from rfl, heq]
      rw [h0] at h
      norm_num at h
    · refine ⟨p, hp, ?_, ?_⟩
      · rw [hsim]
        exact hfst
      · simp only [PriceMatcher.fuzzy_match]
        rw [hfst, if_pos h]
        exact hsnd

/-- C4 witness: against the query "w x", the entry "w x y z" scores exactly
one half and is rejected; the entry "w x y" scores two thirds, achieves the
maximum, and is returned. -/
theorem fuzzy_threshold_boundary_witness :
    PriceMatcher.fuzzy_match halfLookup "w x" "w x" = none ∧
    ∃ p ∈ overLookup,
      PriceMatcher.similarity_score "w x" "w x" p.1 =
        PriceMatcher.max_fuzzy_score overLookup "w x" "w x" ∧
      PriceMatcher.fuzzy_match overLookup "w x" "w x" = some p.2 :=
  ⟨(fuzzy_threshold_boundary halfLookup "w x" "w x").1 (by with_unfolding_all decide),
   (fuzzy_threshold_boundary overLookup "w x" "w x").2 (by with_unfolding_all decide)⟩
/-- `dictFind` after `dictSet`: the set key reads back the new value; every
other key is untouched (Python dict update semantics). -/
lemma dictFind_dictSet {α : Type} (l : List (String × α)) (k : String) (v : α)
    (key : String) :
    dictFind (dictSet l k v) key = if key = k then some v else dictFind l key := by
  induction l with
  | nil =>
    by_cases h : key = k
    · subst h; simp [dictSet, dictFind]
    · simp [dictSet, dictFind, h, Ne.symm h]
  | cons p rest ih =>
    obtain ⟨kk, w⟩ := p
    by_cases h1 : kk = k
    · subst h1
      by_cases h2 : key = kk
      · subst h2; simp [dictSet, dictFind]
      · simp [dictSet, dictFind, h2, Ne.symm h2]
    · by_cases h2 : kk = key
      · subst h2
        simp [dictSet, dictFind, h1]
      · simp [dictSet, dictFind, h1, h2, ih]

/-- `dictFind` after one `insertPrice`: under the inserted key the result is
the cheaper-or-earlier choice between the old value and the new entry; other
keys are untouched. -/
lemma dictFind_insertPrice (lk : List (String × PriceInfo))
    (prov name : String) (price : ℚ) (key : String) :
    dictFind (insertPrice lk prov name price) key =
      if pyLower name = key then
        minFoldStep (dictFind lk key) ⟨price, prov, name⟩
      else dictFind lk key := by
  simp only [insertPrice]
  by_cases h : pyLower name = key
  · rw [if_pos h, h]
    rcases hf : dictFind lk key with _ | ex
    · simp [minFoldStep, dictFind_dictSet]
    · dsimp only [minFoldStep]
      split_ifs with hlt
      · simp [dictFind_dictSet]
      · exact hf
  · rw [if_neg h]
    rcases hf : dictFind lk (pyLower name) with _ | ex
    · simp [dictFind_dictSet, Ne.symm h]
    · dsimp only
      split_ifs with hlt
      · simp [dictFind_dictSet, Ne.symm h]
      · rfl

/-- The nested provider/model fold of `_load_price_data` equals the fold of
the flattened entry list. -/
lemma load_fold_general (price_data : List (String × List (String × ℚ))) :
    ∀ init : List (String × PriceInfo),
      price_data.foldl
        (fun lookup prov =>
          prov.2.foldl (fun lk m => insertPrice lk prov.1 m.1 m.2) lookup)
        init =
      (flatEntries price_data).foldl insertStep init := by
  induction price_data with
  | nil => intro init; rfl
  | cons prov rest ih =>
    intro init
    rw [List.foldl_cons, ih]
    have hflat : flatEntries (prov :: rest) =
        prov.2.map (fun m => (prov.1, m)) ++ flatEntries rest := by
      simp [flatEntries]
    rw [hflat, List.foldl_append, List.foldl_map]
    rfl

/-- `dictFind` after the whole dedup fold: per key, the result is the price
minimum (ties to the earlier entry) of the candidates for that key, seeded by
whatever the accumulator already held. -/
lemma dictFind_insert_fold (key : String) :
    ∀ (items : List (String × String × ℚ)) (lk : List (String × PriceInfo)),
      dictFind (items.foldl insertStep lk) key =
        minFold (dictFind lk key)
          (items.filterMap (fun it =>
            if pyLower it.2.1 = key then some ⟨it.2.2, it.1, it.2.1⟩ else none)) := by
  intro items
  induction items with
  | nil => intro lk; rfl
  | cons it rest ih =>
    intro lk
    rw [List.foldl_cons, ih, List.filterMap_cons]
    have hins : insertStep lk it = insertPrice lk it.1 it.2.1 it.2.2 := rfl
    by_cases h : pyLower it.2.1 = key
    · rw [if_pos h, hins, dictFind_insertPrice, if_pos h]
      rfl
    · rw [if_neg h, hins, dictFind_insertPrice, if_neg h]

/-- C5: for every price catalog and key, the loaded lookup retains, among all
entries collapsing to that lowercased key, the running price minimum in which
a strictly cheaper later entry replaces and an equal-priced later entry is
discarded (first-seen wins on ties); in particular insertion prices [2, 1]
retain the 1-entry and [1, 1] retain the first. -/
theorem price_dedup_tiebreak :
    (∀ (price_data : List (String × List (String × ℚ))) (key : String),
      dictFind (load_price_data price_data) key =
        minFold none (entriesFor price_data key)) ∧
    dictFind (load_price_data collidingCatalog) "x" = some ⟨1, "ProvB", "x"⟩ ∧
    dictFind (load_price_data tiedCatalog) "x" = some ⟨1, "ProvA", "X"⟩ := by
  refine ⟨fun price_data key => ?_, by with_unfolding_all decide,
    by with_unfolding_all decide⟩
  rw [show load_price_data price_data = (flatEntries price_data).foldl insertStep []
      from load_fold_general price_data []]
  exact dictFind_insert_fold key (flatEntries price_data) []

/-- The accumulator-passing loop of `generate` appends exactly the processed
pairs of the remaining rank entries, in order. -/
lemma generateAux_spec (lookup : List (String × PriceInfo)) (min_elo : ℚ)
    (exclude_free : Bool) :
    ∀ (rest : List RankModel) (syn : List ModelData)
      (dbg : List MatchingDebugInfo) (out : List ModelData × List MatchingDebugInfo),
      DataSynthesizer.generateAux lookup min_elo exclude_free rest syn dbg = some out →
      out.1 = syn ++ (processedPairs lookup min_elo exclude_free rest).map Prod.fst ∧
      out.2 = dbg ++ (processedPairs lookup min_elo exclude_free rest).map Prod.snd := by
  intro rest
  induction rest with
  | nil =>
    intro syn dbg out h
    have h' : some (syn, dbg) = some out := h
    rw [Option.some_inj] at h'
    subst h'
    simp [processedPairs]
  | cons m rest ih =>
    intro syn dbg out h
    revert h
    simp only [DataSynthesizer.generateAux]
    cases hS : m.Score with
    | none => intro h; exact Option.noConfusion h
    | some sc =>
      dsimp only
      by_cases hlt : sc < min_elo
      · rw [if_pos hlt]
        intro h
        simpa [processedPairs, List.filterMap_cons, hS, hlt] using ih syn dbg out h
      · rw [if_neg hlt]
        cases hp : DataSynthesizer.process_model lookup exclude_free m with
        | some pair =>
          obtain ⟨md, di⟩ := pair
          intro h
          have hres := ih (syn ++ [md]) (dbg ++ [di]) out h
          simp only [processedPairs, List.filterMap_cons, hS, if_neg hlt, hp]
          simp only [processedPairs] at hres
          constructor
          · rw [hres.1]; simp
          · rw [hres.2]; simp
        | none =>
          intro h
          simpa [processedPairs, List.filterMap_cons, hS, hlt, hp] using ih syn dbg out h

/-- C9 (amended): whenever `generate` succeeds, the resolved and debug lists
are exactly the first and second components of the processed pairs — same
cardinality, same (rank) order, one pair per entry for which `_process_model`
returned a result; entries rejected by the score filter, the truthiness guard,
the free-price exclusion, or the DEFAULT_ESTIMATE/Unknown filter appear in
neither list. -/
theorem debug_resolved_lockstep (lookup : List (String × PriceInfo))
    (min_elo : ℚ) (exclude_free : Bool) (rank_data : List RankModel)
    (syn : List ModelData) (dbg : List MatchingDebugInfo)
    (h : DataSynthesizer.generate lookup min_elo exclude_free rank_data =
      some (syn, dbg)) :
    syn.length = dbg.length ∧
    syn = (processedPairs lookup min_elo exclude_free rank_data).map Prod.fst ∧
    dbg = (processedPairs lookup min_elo exclude_free rank_data).map Prod.snd := by
  have hres := generateAux_spec lookup min_elo exclude_free rank_data [] [] (syn, dbg) h
  simp only [List.nil_append] at hres
  exact ⟨by rw [hres.1, hres.2]; simp, hres.1, hres.2⟩

/-- C9 witness: a one-entry run where the normalized match succeeds, with both
output lists of length one. -/
theorem debug_resolved_lockstep_witness :
    ([⟨"gpt-4o-2024-08-06", 1300, 5 / 2, "OpenAI", 500, "gpt-4o"⟩] :
        List ModelData).length =
      ([⟨"gpt-4o-2024-08-06", "gpt-4o", 5 / 2, "OpenAI"⟩] :
        List MatchingDebugInfo).length ∧
    [(⟨"gpt-4o-2024-08-06", 1300, 5 / 2, "OpenAI", 500, "gpt-4o"⟩ : ModelData)] =
      (processedPairs demoLookup 1250 true [gpt4oEntry]).map Prod.fst ∧
    [(⟨"gpt-4o-2024-08-06", "gpt-4o", 5 / 2, "OpenAI"⟩ : MatchingDebugInfo)] =
      (processedPairs demoLookup 1250 true [gpt4oEntry]).map Prod.snd :=
  debug_resolved_lockstep demoLookup 1250 true [gpt4oEntry] _ _
    (by with_unfolding_all decide)

/-- C9 counterexample: the unmatched OpenAI entry passes the score filter and
the truthiness guard — it enters the matching step — yet the run emits no
debug record at all (both output lists are empty): pre-filter resolution
attempts are not all represented in the debug list. -/
theorem excluded_entry_missing_debug_cex :
    entered_matching 1250 unknownEntry = true ∧
    DataSynthesizer.generate [] 1250 true [unknownEntry] = some ([], []) := by
  with_unfolding_all decide
